import Mathlib

/-!
Shallow embedding of the reconciliation core of the ALB ingress controller
(controller/controller.go together with the main entrypoint). Stateful Go
code is modelled by explicit state passing: a diff cycle (OnUpdate) is a
function from the previous tracked-entity list, the current ingress specs
and the cloud inventory to the next tracked-entity list. Types defined in
repository files that are not available (ALBIngress, its helpers) are
modelled from the spec and marked as such in their doc comments.
-/

set_option autoImplicit false

/-- A cloud load balancer as returned by the inventory listing
(elbv2.LoadBalancer in the Go code): its AWS resource name and its
handle (ARN). -/
structure LoadBalancer where
  name : String
  arn : String
  deriving DecidableEq

/-- Modelled from the spec: the tracked entity, "ALBIngress" (§3 DATA MODEL);
its Go type lives in a repository file not available here. `id` is the stable
namespace/name identity; `tainted` is the partial-build-failure flag;
`LoadBalancers` is the ordered collection of associated cloud handles;
`desiredState` is the spec-derived intent snapshot, none once stripped. -/
structure ALBIngress where
  id : String
  tainted : Bool
  LoadBalancers : List String
  desiredState : Option String
  deriving DecidableEq

/-- The tracked-entity list, ALBIngressesT in the Go code. The Go field is
only ever nil or the result of append, so nil and empty coincide and the
Go nil check is modelled by emptiness. -/
abbrev ALBIngressesT := List ALBIngress

/-- Modelled from the spec: ALBIngressesT.find, whose body lives in a
repository file not available here; matching across cycles "is by identity,
not by object reference" (§4.4). Returns the index of the first entity with
the same identity; the Go function returns -1 (here none) when absent. -/
def ALBIngressesT.find : ALBIngressesT → ALBIngress → Option Nat
  | [], _ => none
  | x :: rest, e =>
    if x.id = e.id then some 0
    else (ALBIngressesT.find rest e).map (fun n => n + 1)

/-- Modelled from the spec: StripDesiredState, whose body lives in a
repository file not available here; it clears the entity's desired state,
the signal that convergence must tear down rather than reconcile (§3). -/
def StripDesiredState (e : ALBIngress) : ALBIngress :=
  { e with desiredState := none }

/-- Modelled from the spec: NewALBIngressFromLoadBalancer, whose body lives
in a repository file not available here. It derives the owning identity by
reversing the naming convention (cloud resource name = cluster identifier,
a dash, then the identity, §4.3), yielding an entity that holds exactly that
one load-balancer handle and no desired state; a name that does not carry
the cluster identifier yields no entity (the Go ok = false return). -/
def NewALBIngressFromLoadBalancer (clusterName : String) (lb : LoadBalancer) :
    Option ALBIngress :=
  let pre := (clusterName ++ "-").data
  if pre.isPrefixOf lb.name.data then
    some { id := String.mk (lb.name.data.drop pre.length),
           tainted := false,
           LoadBalancers := [lb.arn],
           desiredState := none }
  else
    none

/-- The declarative spec (a Kubernetes extensions/v1beta1 Ingress) as the
controller core sees it: identity fields plus the metadata annotation map,
modelled as an association list. -/
structure Ingress where
  ns : String
  name : String
  annots : List (String × String)
  deriving DecidableEq

/-- Go map indexing with the zero value: i.Annotations[key] yields "" when
the key is absent (controller.go line 105). -/
def annotValue (i : Ingress) (key : String) : String :=
  match i.annots.lookup key with
  | some v => v
  | none => ""

/-- controller.go lines 101-109: with no IngressClass configured every
ingress is valid; otherwise only an ingress whose kubernetes.io/ingress.class
annotation value equals the configured class exactly. -/
def validIngress (ingressClass : String) (i : Ingress) : Bool :=
  if ingressClass = "" then true
  else if annotValue i "kubernetes.io/ingress.class" = ingressClass then true
  else false

/-- controller.go lines 63-82: the per-cycle list build. Each ingress in the
store is skipped unless validIngress; the desired-state builder
(NewALBIngressFromIngress, whose body lives in a repository file not
available here) is abstracted as the argument build, returning none for the
Go nil entity and pairing the entity with a flag for the Go non-nil error; an
entity built with an error is marked tainted (line 78) and every non-nil
entity is appended in order. -/
def buildNewList (ingressClass : String)
    (build : Ingress → Option (ALBIngress × Bool)) :
    List Ingress → ALBIngressesT
  | [] => []
  | i :: rest =>
    if validIngress ingressClass i then
      match build i with
      | none => buildNewList ingressClass build rest
      | some (e, failed) =>
        (if failed then { e with tainted := true } else e)
          :: buildNewList ingressClass build rest
    else
      buildNewList ingressClass build rest

/-- controller.go lines 211-226, the per-entity decision of the deletion
loop: a tainted entity yields nothing; an entity found (by identity) in the
new list yields nothing; an entity absent from the new list yields its
stripped form when it still has load balancers and nothing otherwise. -/
def deleteStep (newList : ALBIngressesT) (ing : ALBIngress) :
    Option ALBIngress :=
  if ing.tainted then none
  else
    match ALBIngressesT.find newList ing with
    | some _ => none
    | none =>
      if ing.LoadBalancers.length > 0 then some (StripDesiredState ing)
      else none

/-- controller.go lines 207-229 (ingressToDelete): the loop over the
previous list appends, in order, what deleteStep yields for each entity. -/
def ingressToDelete (newList : ALBIngressesT) (prev : ALBIngressesT) :
    ALBIngressesT :=
  prev.filterMap (deleteStep newList)

/-- controller.go lines 253-263, one discovered load balancer merged into
the accumulating list: an unparseable name is skipped; when an entity with
the same identity already exists the code appends that entity's own first
handle (albIngress.LoadBalancers[0] after albIngress was reassigned to the
existing entity) to its collection, modelled with take 1 since Go would
panic on an empty collection; otherwise the new entity is appended. -/
def assembleStep (clusterName : String) (acc : ALBIngressesT)
    (lb : LoadBalancer) : ALBIngressesT :=
  match NewALBIngressFromLoadBalancer clusterName lb with
  | none => acc
  | some ing =>
    match ALBIngressesT.find acc ing with
    | some i =>
      match acc.get? i with
      | some ex =>
        acc.set i
          { ex with LoadBalancers := ex.LoadBalancers ++ ex.LoadBalancers.take 1 }
      | none => acc
    | none => acc ++ [ing]

/-- controller.go lines 249-266 (assembleIngresses): the tracked list built
from the discovered load balancers. The goroutine fan-out is modelled as a
sequential left fold over the listing order; the spec itself requires the
read-check-append merge to be serialized (§4.3). -/
def assembleIngresses (clusterName : String) (lbs : List LoadBalancer) :
    ALBIngressesT :=
  lbs.foldl (assembleStep clusterName) []

/-- The outcome of one diff cycle: the next tracked-entity list, the Go
error returned by OnUpdate, and whether the bootstrap branch was taken. -/
structure CycleResult where
  next : ALBIngressesT
  err : Option String
  bootstrapped : Bool
  deriving DecidableEq

/-- controller.go lines 53-96 (OnUpdate): bootstrap from the cloud inventory
when the stored list is nil (lines 54-56), build the new list from the
current specs (lines 63-82), append the deletable entities when any (lines
85-90), store the result wholesale (line 94) and return a nil error
(line 95). -/
def onUpdate (ingressClass clusterName : String)
    (build : Ingress → Option (ALBIngress × Bool))
    (cloudLBs : List LoadBalancer) (specs : List Ingress)
    (state : ALBIngressesT) : CycleResult :=
  let state1 := if state.isEmpty then assembleIngresses clusterName cloudLBs
                else state
  let newList := buildNewList ingressClass build specs
  let deletable := ingressToDelete newList state1
  let next := if deletable.length > 0 then newList ++ deletable else newList
  { next := next, err := none, bootstrapped := state.isEmpty }

/-- controller.go lines 53-56 together with lines 241-244: a diff cycle that
needs bootstrap consults the cloud listing; a failed listing aborts the
process via glog.Fatal, modelled as none; a cycle that does not bootstrap
never consults the listing. -/
def onUpdateChecked (ingressClass clusterName : String)
    (build : Ingress → Option (ALBIngress × Bool))
    (listing : Except String (List LoadBalancer)) (specs : List Ingress)
    (state : ALBIngressesT) : Option CycleResult :=
  if state.isEmpty then
    match listing with
    | Except.error _ => none
    | Except.ok lbs => some (onUpdate ingressClass clusterName build lbs specs state)
  else
    some (onUpdate ingressClass clusterName build [] specs state)

/-- controller.go lines 112-129 (Reload): every tracked entity is reconciled
in its own goroutine (the per-entity outcome is never consulted), the
dispatcher waits for all of them, and the function unconditionally returns
the empty byte slice, true and a nil error. -/
def Reload (reconcile : ALBIngress → Bool) (ingresses : ALBIngressesT) :
    String × Bool × Option String :=
  let _ := ingresses.map reconcile
  ("", true, none)

/-- Kubernetes service types distinguished by controller.go line 190. -/
inductive ServiceType where
  | NodePort
  | ClusterIP
  | LoadBalancerType
  deriving DecidableEq

/-- One declared service port: its port number and its node port
(api.ServicePort restricted to the fields the resolver reads). -/
structure ServicePort where
  port : Int
  nodePort : Int
  deriving DecidableEq

/-- A Kubernetes service as the resolver reads it: its type and its
declared ports, in declaration order. -/
structure Service where
  svcType : ServiceType
  ports : List ServicePort
  deriving DecidableEq

/-- The three error cases of GetServiceNodePort, standing for the Go error
messages of controller.go lines 186, 191 and 202. -/
inductive NodePortError where
  | serviceNotFound
  | wrongServiceType
  | portNotFound
  deriving DecidableEq

/-- controller.go lines 182-203 (GetServiceNodePort): look the service up by
key in the store (a missing key is the Go exists = false); reject a service
that is not of type NodePort; walk the declared ports in order and return
the node port of the first one whose port number equals the requested
backend port; report portNotFound when none matches. -/
def GetServiceNodePort (store : List (String × Service)) (serviceKey : String)
    (backendPort : Int) : Except NodePortError Int :=
  match store.lookup serviceKey with
  | none => Except.error NodePortError.serviceNotFound
  | some svc =>
    if svc.svcType ≠ ServiceType.NodePort then
      Except.error NodePortError.wrongServiceType
    else
      match svc.ports.find? (fun p => p.port == backendPort) with
      | some p => Except.ok p.nodePort
      | none => Except.error NodePortError.portNotFound

/-- main.go lines 48-54: the process exits (glog.Exit) before starting the
ingress controller when the configured cluster name is "" or its Go len,
the UTF-8 byte count, exceeds 11; otherwise ic.Start() is reached. -/
def mainStartsController (clusterName : String) : Bool :=
  if clusterName = "" then false
  else if clusterName.utf8ByteSize > 11 then false
  else true

/-! Helper lemmas about the embedded operations. -/

theorem strip_id (e : ALBIngress) : (StripDesiredState e).id = e.id := rfl

theorem strip_tainted_eq (e : ALBIngress) :
    (StripDesiredState e).tainted = e.tainted := rfl

theorem strip_lbs (e : ALBIngress) :
    (StripDesiredState e).LoadBalancers = e.LoadBalancers := rfl

theorem strip_strip (e : ALBIngress) :
    StripDesiredState (StripDesiredState e) = StripDesiredState e := rfl

theorem find_congr (l : ALBIngressesT) (e1 e2 : ALBIngress)
    (h : e1.id = e2.id) : ALBIngressesT.find l e1 = ALBIngressesT.find l e2 := by
  induction l with
  | nil => rfl
  | cons a t ih => simp [ALBIngressesT.find, h, ih]

theorem find_strip (l : ALBIngressesT) (e : ALBIngress) :
    ALBIngressesT.find l (StripDesiredState e) = ALBIngressesT.find l e :=
  find_congr l (StripDesiredState e) e (strip_id e)

theorem find_eq_none_iff (l : ALBIngressesT) (e : ALBIngress) :
    ALBIngressesT.find l e = none ↔ ∀ x ∈ l, x.id ≠ e.id := by
  induction l with
  | nil => simp [ALBIngressesT.find]
  | cons a t ih =>
    by_cases h : a.id = e.id
    · simp [ALBIngressesT.find, h]
    · simp [ALBIngressesT.find, h, ih]

theorem find_ne_none_of_mem (l : ALBIngressesT) (e x : ALBIngress)
    (hx : x ∈ l) (hid : x.id = e.id) : ALBIngressesT.find l e ≠ none :=
  fun hnone => (find_eq_none_iff l e).mp hnone x hx hid

theorem deleteStep_eq_some (nl : ALBIngressesT) (a x : ALBIngress) :
    deleteStep nl a = some x ↔
      a.tainted = false ∧ ALBIngressesT.find nl a = none ∧
        a.LoadBalancers ≠ [] ∧ x = StripDesiredState a := by
  unfold deleteStep
  cases ht : a.tainted with
  | true => simp
  | false =>
    cases hf : ALBIngressesT.find nl a with
    | some i => simp [hf]
    | none =>
      by_cases hl : a.LoadBalancers.length > 0
      · have hne : a.LoadBalancers ≠ [] := List.length_pos.mp hl
        simp [hl, hne, eq_comm]
      · have hnil : a.LoadBalancers = [] :=
          List.length_eq_zero.mp (Nat.eq_zero_of_not_pos hl)
        simp [hl, hnil]

theorem deleteStep_of_mem_newList (nl : ALBIngressesT) (x : ALBIngress)
    (hx : x ∈ nl) : deleteStep nl x = none := by
  unfold deleteStep
  cases ht : x.tainted with
  | true => simp
  | false =>
    cases hf : ALBIngressesT.find nl x with
    | none => exact absurd hf (find_ne_none_of_mem nl x x hx rfl)
    | some i => simp

theorem mem_ingressToDelete (nl l : ALBIngressesT) (x : ALBIngress) :
    x ∈ ingressToDelete nl l ↔ ∃ y ∈ l, deleteStep nl y = some x := by
  simp [ingressToDelete]

theorem ingressToDelete_append (nl a b : ALBIngressesT) :
    ingressToDelete nl (a ++ b) =
      ingressToDelete nl a ++ ingressToDelete nl b := by
  simp [ingressToDelete]

theorem ingressToDelete_eq_nil (nl l : ALBIngressesT)
    (h : ∀ x ∈ l, deleteStep nl x = none) : ingressToDelete nl l = [] := by
  simpa [ingressToDelete] using h

theorem ingressToDelete_newList (nl : ALBIngressesT) :
    ingressToDelete nl nl = [] :=
  ingressToDelete_eq_nil nl nl (fun x hx => deleteStep_of_mem_newList nl x hx)

theorem filterMap_id_of_mem {α : Type} (f : α → Option α) (l : List α)
    (h : ∀ a ∈ l, f a = some a) : l.filterMap f = l := by
  induction l with
  | nil => rfl
  | cons a t ih =>
    have ha := h a (List.mem_cons_self a t)
    simp [List.filterMap_cons, ha,
      ih (fun x hx => h x (List.mem_cons_of_mem a hx))]

theorem deleteStep_of_mem_toDelete (nl l : ALBIngressesT) (x : ALBIngress)
    (hx : x ∈ ingressToDelete nl l) : deleteStep nl x = some x := by
  rcases (mem_ingressToDelete nl l x).mp hx with ⟨y, hy, hstep⟩
  rcases (deleteStep_eq_some nl y x).mp hstep with ⟨ht, hf, hlb, hxe⟩
  subst hxe
  apply (deleteStep_eq_some nl (StripDesiredState y) (StripDesiredState y)).mpr
  refine ⟨ht, ?_, hlb, (strip_strip y).symm⟩
  rw [find_strip]
  exact hf

theorem ingressToDelete_toDelete (nl l : ALBIngressesT) :
    ingressToDelete nl (ingressToDelete nl l) = ingressToDelete nl l :=
  filterMap_id_of_mem _ _ (fun x hx => deleteStep_of_mem_toDelete nl l x hx)

theorem append_if_length {α : Type} (a b : List α) :
    (if b.length > 0 then a ++ b else a) = a ++ b := by
  cases b with
  | nil => simp
  | cons x t => simp

theorem isEmpty_false_of_ne_nil {α : Type} (l : List α) (h : l ≠ []) :
    l.isEmpty = false := by
  cases l with
  | nil => exact absurd rfl h
  | cons a t => rfl

theorem onUpdate_next_eq (cls cn : String)
    (build : Ingress → Option (ALBIngress × Bool))
    (cloud : List LoadBalancer) (specs : List Ingress)
    (state : ALBIngressesT) :
    (onUpdate cls cn build cloud specs state).next =
      buildNewList cls build specs ++
        ingressToDelete (buildNewList cls build specs)
          (if state.isEmpty then assembleIngresses cn cloud else state) := by
  unfold onUpdate
  simp only [append_if_length]

theorem eq_of_mem_of_nodup_ids (l : ALBIngressesT) (y e : ALBIngress)
    (hnodup : (l.map (fun x => x.id)).Nodup) (hy : y ∈ l) (he : e ∈ l)
    (hid : y.id = e.id) : y = e :=
  List.inj_on_of_nodup_map hnodup hy he hid

/-! Claim theorems. -/

/-- C1: in a diff cycle, an entity of the previous tracked set whose
identity is absent from the newly built set is handled exactly as claimed:
not tainted with a non-empty LoadBalancers collection, it appears in the
next set with its desiredState stripped and is the only entity carrying its
identity there; not tainted with an empty collection, no entity with its
identity appears in the next set; tainted, no entity with its identity
appears in the next set regardless of its LoadBalancers. -/
theorem C1_deletion_eligibility (cls cn : String)
    (build : Ingress → Option (ALBIngress × Bool))
    (cloud : List LoadBalancer) (specs : List Ingress)
    (state : ALBIngressesT) (e : ALBIngress)
    (he : e ∈ state)
    (hnodup : (state.map (fun x => x.id)).Nodup)
    (habsent : ALBIngressesT.find (buildNewList cls build specs) e = none) :
    (e.tainted = false → e.LoadBalancers ≠ [] →
      StripDesiredState e ∈ (onUpdate cls cn build cloud specs state).next ∧
      ∀ x ∈ (onUpdate cls cn build cloud specs state).next,
        x.id = e.id → x = StripDesiredState e) ∧
    (e.tainted = false → e.LoadBalancers = [] →
      ∀ x ∈ (onUpdate cls cn build cloud specs state).next, x.id ≠ e.id) ∧
    (e.tainted = true →
      ∀ x ∈ (onUpdate cls cn build cloud specs state).next, x.id ≠ e.id) := by
  have hne : state ≠ [] := List.ne_nil_of_mem he
  have hemp : state.isEmpty = false := isEmpty_false_of_ne_nil state hne
  have hnext : (onUpdate cls cn build cloud specs state).next =
      buildNewList cls build specs ++
        ingressToDelete (buildNewList cls build specs) state := by
    rw [onUpdate_next_eq, hemp]
    simp
  have hNL : ∀ x ∈ buildNewList cls build specs, x.id ≠ e.id :=
    (find_eq_none_iff _ e).mp habsent
  have key : ∀ x, x ∈ ingressToDelete (buildNewList cls build specs) state →
      x.id = e.id →
      e.tainted = false ∧ e.LoadBalancers ≠ [] ∧ x = StripDesiredState e := by
    intro x hx hid
    rcases (mem_ingressToDelete _ _ _).mp hx with ⟨y, hy, hstep⟩
    rcases (deleteStep_eq_some _ _ _).mp hstep with ⟨hyt, _, hylb, hxe⟩
    rw [hxe, strip_id] at hid
    have hye : y = e := eq_of_mem_of_nodup_ids state y e hnodup hy he hid
    subst hye
    exact ⟨hyt, hylb, hxe⟩
  refine ⟨?_, ?_, ?_⟩
  · intro h1 h2
    constructor
    · rw [hnext]
      refine List.mem_append_right _ ?_
      exact (mem_ingressToDelete _ _ _).mpr
        ⟨e, he, (deleteStep_eq_some _ _ _).mpr ⟨h1, habsent, h2, rfl⟩⟩
    · intro x hx hid
      rw [hnext] at hx
      rcases List.mem_append.mp hx with hxl | hxr
      · exact absurd hid (hNL x hxl)
      · exact (key x hxr hid).2.2
  · intro h1 h2 x hx hid
    rw [hnext] at hx
    rcases List.mem_append.mp hx with hxl | hxr
    · exact hNL x hxl hid
    · exact (key x hxr hid).2.1 h2
  · intro h3 x hx hid
    rw [hnext] at hx
    rcases List.mem_append.mp hx with hxl | hxr
    · exact hNL x hxl hid
    · rw [(key x hxr hid).1] at h3
      cases h3

/-- C1 witness: a concrete previous set with one non-tainted entity holding
one load balancer and an empty spec list; the entity appears stripped in the
next set. -/
theorem C1_deletion_eligibility_witness :
    StripDesiredState ⟨"a", false, ["l1"], some "d"⟩ ∈
      (onUpdate "" "k8s" (fun _ => none) [] []
        [⟨"a", false, ["l1"], some "d"⟩]).next :=
  ((C1_deletion_eligibility "" "k8s" (fun _ => none) [] []
      [⟨"a", false, ["l1"], some "d"⟩] ⟨"a", false, ["l1"], some "d"⟩
      (by decide) (by decide) (by decide)).1 (by decide) (by decide)).1

/-- C2 counterexample: previous set holds the tainted entity bar with one
load balancer, the current specs no longer contain bar, and the next set is
empty — the entity is not retained for visibility, refuting the claim. -/
theorem C2_tainted_not_retained_counterexample :
    (onUpdate "" "k8s" (fun _ => none) [] []
      [⟨"bar", true, ["arn1"], some "d"⟩]).next = [] := by decide

/-- C2 (amended): a tainted entity of the previous tracked set whose
identity is absent from the newly built set is excluded from deletion
consideration but is not retained: no entity with its identity, stripped or
otherwise, appears in the next tracked set. -/
theorem C2_tainted_excluded_and_dropped (cls cn : String)
    (build : Ingress → Option (ALBIngress × Bool))
    (cloud : List LoadBalancer) (specs : List Ingress)
    (state : ALBIngressesT) (e : ALBIngress)
    (he : e ∈ state)
    (ht : e.tainted = true)
    (hnodup : (state.map (fun x => x.id)).Nodup)
    (habsent : ALBIngressesT.find (buildNewList cls build specs) e = none) :
    ((onUpdate cls cn build cloud specs state).next).filter
      (fun x => x.id == e.id) = [] := by
  have hne : state ≠ [] := List.ne_nil_of_mem he
  have hemp : state.isEmpty = false := isEmpty_false_of_ne_nil state hne
  have hnext : (onUpdate cls cn build cloud specs state).next =
      buildNewList cls build specs ++
        ingressToDelete (buildNewList cls build specs) state := by
    rw [onUpdate_next_eq, hemp]
    simp
  rw [hnext, List.filter_eq_nil_iff]
  intro x hx
  simp only [beq_iff_eq]
  intro hid
  rcases List.mem_append.mp hx with hxl | hxr
  · exact (find_eq_none_iff _ e).mp habsent x hxl hid
  · rcases (mem_ingressToDelete _ _ _).mp hxr with ⟨y, hy, hstep⟩
    rcases (deleteStep_eq_some _ _ _).mp hstep with ⟨hyt, _, _, hxe⟩
    rw [hxe, strip_id] at hid
    have hye : y = e := eq_of_mem_of_nodup_ids state y e hnodup hy he hid
    rw [hye, ht] at hyt
    cases hyt

/-- C2 amended-claim witness: the concrete tainted entity bar from the
counterexample scenario carries no entity with its identity into the next
set. -/
theorem C2_tainted_excluded_and_dropped_witness :
    ((onUpdate "" "k8s" (fun _ => none) [] []
      [⟨"bar", true, ["arn1"], some "d"⟩]).next).filter
      (fun x => x.id == "bar") = [] :=
  C2_tainted_excluded_and_dropped "" "k8s" (fun _ => none) [] []
    [⟨"bar", true, ["arn1"], some "d"⟩] ⟨"bar", true, ["arn1"], some "d"⟩
    (by decide) (by decide) (by decide) (by decide)

/-- C3: Bootstrap Resync on two discovered load balancers named k8s-2048/ing
with handles arn1 and arn2, both mapping to the identity 2048/ing: exactly
one entity results, but its collection is [arn1, arn1] — the second
discovered handle arn2 is not present, because the merge at controller.go
line 260 appends the existing entity's own first handle instead of the newly
discovered one. -/
theorem C3_bootstrap_merge_duplicates_first_handle :
    assembleIngresses "k8s"
        [⟨"k8s-2048/ing", "arn1"⟩, ⟨"k8s-2048/ing", "arn2"⟩]
      = [⟨"2048/ing", false, ["arn1", "arn1"], none⟩] := by decide

/-- C4 counterexample: with an empty cloud inventory and an empty spec list,
the bootstrap branch is taken on the first cycle, the cycle stores an empty
(nil) set again, and the bootstrap branch is taken again on the second
cycle — bootstrap does not run exactly once across the process lifetime. -/
theorem C4_bootstrap_runs_twice_counterexample :
    (onUpdate "" "k8s" (fun _ => none) [] [] []).bootstrapped = true ∧
    (onUpdate "" "k8s" (fun _ => none) [] []
        (onUpdate "" "k8s" (fun _ => none) [] [] []).next).bootstrapped
      = true := by decide

/-- C4 (amended): Bootstrap Resync runs on a diff cycle iff the tracked set
is uninitialized (nil, coinciding with empty) at the start of that cycle;
because a cycle that produces no entities stores nil again, bootstrap can
recur, and only after a cycle whose stored result is non-empty is the
following cycle guaranteed not to bootstrap. -/
theorem C4_bootstrap_condition (cls cn : String)
    (build : Ingress → Option (ALBIngress × Bool))
    (cloud : List LoadBalancer) (specs : List Ingress)
    (state : ALBIngressesT) :
    ((onUpdate cls cn build cloud specs state).bootstrapped = true ↔
      state = []) ∧
    ((onUpdate cls cn build cloud specs state).next ≠ [] →
      ∀ (cls2 cn2 : String) (build2 : Ingress → Option (ALBIngress × Bool))
        (cloud2 : List LoadBalancer) (specs2 : List Ingress),
        (onUpdate cls2 cn2 build2 cloud2 specs2
            (onUpdate cls cn build cloud specs state).next).bootstrapped
          = false) := by
  constructor
  · show state.isEmpty = true ↔ state = []
    exact List.isEmpty_iff
  · intro h cls2 cn2 build2 cloud2 specs2
    show ((onUpdate cls cn build cloud specs state).next).isEmpty = false
    exact isEmpty_false_of_ne_nil _ h

/-- C4 amended-claim witness: after a cycle over a non-empty tracked set
whose result is non-empty, the following cycle does not take the bootstrap
branch. -/
theorem C4_bootstrap_condition_witness :
    (onUpdate "" "k8s" (fun _ => none) [] []
        (onUpdate "" "k8s" (fun _ => none) [] []
          [⟨"a", false, ["l1"], some "d"⟩]).next).bootstrapped = false :=
  (C4_bootstrap_condition "" "k8s" (fun _ => none) [] []
      [⟨"a", false, ["l1"], some "d"⟩]).2 (by decide) "" "k8s"
    (fun _ => none) [] []

/-- C5: a diff cycle that needs bootstrap aborts the process (none, the
glog.Fatal of controller.go line 243) when the cloud listing fails, proceeds
with the assembled view when the listing succeeds, and a cycle that does not
need bootstrap never aborts whatever the listing. -/
theorem C5_bootstrap_listing_fatal (cls cn : String)
    (build : Ingress → Option (ALBIngress × Bool)) (msg : String)
    (specs : List Ingress) :
    (onUpdateChecked cls cn build (Except.error msg) specs [] = none) ∧
    (∀ lbs, onUpdateChecked cls cn build (Except.ok lbs) specs []
      = some (onUpdate cls cn build lbs specs [])) ∧
    (∀ (listing : Except String (List LoadBalancer)) (state : ALBIngressesT),
      state ≠ [] →
      (onUpdateChecked cls cn build listing specs state).isSome = true) := by
  refine ⟨rfl, fun lbs => rfl, ?_⟩
  intro listing state h
  unfold onUpdateChecked
  rw [isEmpty_false_of_ne_nil state h]
  rfl

/-- C5 witness: a cycle over a non-empty tracked set does not abort even
when the listing carries an error, since the listing is never consulted. -/
theorem C5_bootstrap_listing_fatal_witness :
    (onUpdateChecked "" "k8s" (fun _ => none) (Except.error "boom") []
      [⟨"a", false, ["l1"], some "d"⟩]).isSome = true :=
  (C5_bootstrap_listing_fatal "" "k8s" (fun _ => none) "boom" []).2.2
    (Except.error "boom") [⟨"a", false, ["l1"], some "d"⟩] (by decide)

theorem buildNewList_cons (cls : String)
    (build : Ingress → Option (ALBIngress × Bool)) (i : Ingress)
    (rest : List Ingress) :
    buildNewList cls build (i :: rest) =
      if validIngress cls i then
        match build i with
        | none => buildNewList cls build rest
        | some (e, failed) =>
          (if failed then { e with tainted := true } else e)
            :: buildNewList cls build rest
      else buildNewList cls build rest := rfl

/-- C6: the class filter returns true iff the configured filter class is
empty or the spec's kubernetes.io/ingress.class annotation equals it
exactly, and a spec failing the filter contributes no tracked entity to the
cycle's built list. -/
theorem C6_class_filter (cls : String) (i : Ingress)
    (build : Ingress → Option (ALBIngress × Bool)) (l1 l2 : List Ingress) :
    (validIngress cls i = true ↔
      (cls = "" ∨ annotValue i "kubernetes.io/ingress.class" = cls)) ∧
    (validIngress cls i = false →
      buildNewList cls build (l1 ++ i :: l2)
        = buildNewList cls build (l1 ++ l2)) := by
  constructor
  · unfold validIngress
    split_ifs with h1 h2
    · simp [h1]
    · simp [h1, h2]
    · simp [h1, h2]
  · intro hv
    induction l1 with
    | nil =>
      simp only [List.nil_append, buildNewList_cons, hv]
      simp
    | cons a t ih =>
      simp only [List.cons_append, buildNewList_cons, ih]

/-- C6 witness: a spec with no class annotation under filter class alb fails
the filter and contributes nothing to the built list. -/
theorem C6_class_filter_witness :
    buildNewList "alb" (fun _ => none)
        ([] ++ Ingress.mk "ns" "n" [] :: [])
      = buildNewList "alb" (fun _ => none) ([] ++ []) :=
  (C6_class_filter "alb" (Ingress.mk "ns" "n" []) (fun _ => none) [] []).2
    (by decide)

theorem find_first_port (l1 : List ServicePort) (p : ServicePort)
    (l2 : List ServicePort) (bp : Int) (hp : p.port = bp)
    (hfirst : ∀ q ∈ l1, q.port ≠ bp) :
    (l1 ++ p :: l2).find? (fun q => q.port == bp) = some p := by
  induction l1 with
  | nil =>
    simp only [List.nil_append]
    exact List.find?_cons_of_pos l2 (by simp [hp])
  | cons a t ih =>
    have ha : (a.port == bp) = false := by
      simpa using hfirst a (List.mem_cons_self a t)
    simp only [List.cons_append, List.find?_cons, ha]
    exact ih (fun q hq => hfirst q (List.mem_cons_of_mem a hq))

theorem getServiceNodePort_of_lookup (store : List (String × Service))
    (key : String) (bp : Int) (svc : Service)
    (h : store.lookup key = some svc) :
    GetServiceNodePort store key bp =
      if svc.svcType ≠ ServiceType.NodePort then
        Except.error NodePortError.wrongServiceType
      else
        match svc.ports.find? (fun p => p.port == bp) with
        | some p => Except.ok p.nodePort
        | none => Except.error NodePortError.portNotFound := by
  unfold GetServiceNodePort
  rw [h]

/-- C7: GetServiceNodePort fails with serviceNotFound when the referenced
service is not in the store, wrongServiceType when the service exists but is
not of type NodePort, portNotFound when no declared port carries the
requested backend port number, and otherwise returns the node port of the
first declared port whose port number equals the requested backend port. -/
theorem C7_get_service_node_port (store : List (String × Service))
    (key : String) (bp : Int) :
    (store.lookup key = none →
      GetServiceNodePort store key bp
        = Except.error NodePortError.serviceNotFound) ∧
    (∀ svc, store.lookup key = some svc →
      svc.svcType ≠ ServiceType.NodePort →
      GetServiceNodePort store key bp
        = Except.error NodePortError.wrongServiceType) ∧
    (∀ svc, store.lookup key = some svc →
      svc.svcType = ServiceType.NodePort →
      (∀ q ∈ svc.ports, q.port ≠ bp) →
      GetServiceNodePort store key bp
        = Except.error NodePortError.portNotFound) ∧
    (∀ svc l1 p l2, store.lookup key = some svc →
      svc.svcType = ServiceType.NodePort →
      svc.ports = l1 ++ p :: l2 → p.port = bp →
      (∀ q ∈ l1, q.port ≠ bp) →
      GetServiceNodePort store key bp = Except.ok p.nodePort) := by
  refine ⟨?_, ?_, ?_, ?_⟩
  · intro h
    unfold GetServiceNodePort
    rw [h]
  · intro svc h hne
    rw [getServiceNodePort_of_lookup store key bp svc h, if_pos hne]
  · intro svc h ht hall
    rw [getServiceNodePort_of_lookup store key bp svc h,
      if_neg (fun hn => hn ht)]
    have hfind : svc.ports.find? (fun q => q.port == bp) = none := by
      rw [List.find?_eq_none]
      intro q hq
      simpa using hall q hq
    rw [hfind]
  · intro svc l1 p l2 h ht hports hp hfirst
    rw [getServiceNodePort_of_lookup store key bp svc h,
      if_neg (fun hn => hn ht), hports,
      find_first_port l1 p l2 bp hp hfirst]

/-- C7 witness: a store holding the NodePort service s with declared port 80
and node port 30080 resolves backend port 80 to 30080. -/
theorem C7_get_service_node_port_witness :
    GetServiceNodePort
        [("s", Service.mk ServiceType.NodePort [ServicePort.mk 80 30080])]
        "s" 80
      = Except.ok (30080 : Int) :=
  (C7_get_service_node_port
      [("s", Service.mk ServiceType.NodePort [ServicePort.mk 80 30080])]
      "s" 80).2.2.2
    (Service.mk ServiceType.NodePort [ServicePort.mk 80 30080])
    [] (ServicePort.mk 80 30080) [] (by decide) rfl rfl rfl (by simp)

/-- C8: with the tracked set non-empty at the start of the first run and the
first run's stored result non-empty (so neither run bootstraps), running the
diff cycle twice with an unchanged spec list reproduces the first run's next
set exactly — same entities, identities and desired-state content. -/
theorem C8_diff_idempotent (cls cn : String)
    (build : Ingress → Option (ALBIngress × Bool))
    (cloud : List LoadBalancer) (specs : List Ingress)
    (state : ALBIngressesT)
    (h1 : state ≠ [])
    (h2 : (onUpdate cls cn build cloud specs state).next ≠ []) :
    (onUpdate cls cn build cloud specs
        (onUpdate cls cn build cloud specs state).next).next =
      (onUpdate cls cn build cloud specs state).next := by
  have e1 : (onUpdate cls cn build cloud specs state).next =
      buildNewList cls build specs ++
        ingressToDelete (buildNewList cls build specs) state := by
    rw [onUpdate_next_eq, isEmpty_false_of_ne_nil state h1]
    simp
  rw [onUpdate_next_eq, isEmpty_false_of_ne_nil _ h2]
  simp only [Bool.false_eq_true, if_false]
  rw [e1, ingressToDelete_append, ingressToDelete_newList,
    List.nil_append, ingressToDelete_toDelete]

/-- C8 witness: a concrete non-empty previous set and an empty spec list,
whose first next set (the stripped entity, pending teardown) is non-empty
and reproduced exactly by the second run. -/
theorem C8_diff_idempotent_witness :
    (onUpdate "" "k8s" (fun _ => none) [] []
        (onUpdate "" "k8s" (fun _ => none) [] []
          [⟨"a", false, ["l1"], some "d"⟩]).next).next =
      (onUpdate "" "k8s" (fun _ => none) [] []
        [⟨"a", false, ["l1"], some "d"⟩]).next :=
  C8_diff_idempotent "" "k8s" (fun _ => none) [] []
    [⟨"a", false, ["l1"], some "d"⟩] (by decide) (by decide)

/-- C9: Reload returns the empty byte slice, the true success flag and a nil
error for every tracked-entity set and any per-entity convergence outcomes,
and OnUpdate returns a nil error for every configuration and any per-spec
build outcome. -/
theorem C9_failure_containment (reconcile : ALBIngress → Bool)
    (ingresses : ALBIngressesT) (cls cn : String)
    (build : Ingress → Option (ALBIngress × Bool))
    (cloud : List LoadBalancer) (specs : List Ingress)
    (state : ALBIngressesT) :
    Reload reconcile ingresses = ("", true, none) ∧
    (onUpdate cls cn build cloud specs state).err = none :=
  ⟨rfl, rfl⟩

/-- C10 counterexample: a cluster name of six two-byte characters has 6
characters, within 1 to 11, yet the process exits before starting the
controller: the Go check bounds len, the UTF-8 byte count (here 12), not the
character count. -/
theorem C10_character_count_counterexample :
    mainStartsController "áááááá" = false ∧
    ("áááááá" : String).length = 6 := by decide

/-- C10 (amended): the process exits before starting the ingress controller
whenever the configured cluster name is the empty string or its UTF-8 byte
length (the Go len) exceeds 11; the controller loop only starts for cluster
names of 1 to 11 bytes. -/
theorem C10_cluster_name_gate (name : String) :
    mainStartsController name = true ↔
      (name ≠ "" ∧ name.utf8ByteSize ≤ 11) := by
  unfold mainStartsController
  split_ifs with h1 h2
  · simp [h1]
  · simp only [Bool.false_eq_true, false_iff]
    intro hc
    exact absurd h2 (by omega)
  · simp only [true_iff]
    exact ⟨h1, by omega⟩
